import Mathlib

/-!
Verification of the distributed raycast repository.

Shallow embedding conventions:
* C++ `double` values are modelled as exact rationals (`ℚ`); the spec's
  properties are about the algebraic structure of the computations, not about
  IEEE rounding.
* `cos`/`sin` are passed as abstract function parameters `cosF sinF : ℚ → ℚ`;
  every theorem is stated for all such oracles, and counterexamples pick
  oracle values that real `cos`/`sin` actually attain (e.g. `cos π = -1`,
  `sin π = 0`, `cos 0 = 1`).
* C++ `%` and `/` on `int` truncate toward zero: modelled by `Int.tmod` and
  `Int.tdiv`.  A `(int)` cast of a `double` truncates toward zero: `ratTrunc`.
* A `static_cast<uint8_t>` of an out-of-range `double` is undefined behaviour
  in C++; it is modelled by the conventional x86-64 semantics (truncate toward
  zero, then take the value modulo 256), see `toUInt8Wrap`.
* The C++ `while (true)` DDA loop is modelled with explicit fuel large enough
  to cover the march (each iteration moves the cell cursor one step in a fixed
  direction, so the march leaves the bound-check window after at most
  `|mapX0| + |mapY0| + |mapW| + |mapH|` steps); the theorems proved below do
  not depend on the exact fuel value.
-/

namespace RaycastWorker

/-- Truncation of a rational toward zero, the semantics of a C++
`static_cast<int>` applied to a `double` value. -/
def ratTrunc (q : ℚ) : ℤ :=
  if 0 ≤ q then ⌊q⌋ else ⌈q⌉

/-- Conversion of a rational to `uint8_t` as compiled on x86-64: truncate
toward zero, then reduce modulo 256 (the in-range case, value in `[0,256)`,
is the only one defined by the C++ standard; out-of-range values wrap). -/
def toUInt8Wrap (q : ℚ) : ℕ :=
  ((ratTrunc q) % 256).toNat

/-- Engine constant `RaycastEngine::MAX_DISTANCE` (raycast_engine.h). -/
def MAX_DISTANCE : ℚ := 800

/-- Engine constant `RaycastEngine::SCREEN_HEIGHT` (raycast_engine.h). -/
def SCREEN_HEIGHT : ℤ := 768

/-- `map[mapY][mapX]` — row-major cell lookup; only evaluated by the engine
after the bounds check, so the `getD` defaults are never reached on the
guarded paths. -/
def mapCell (map : List (List ℤ)) (y x : ℤ) : ℤ :=
  (map.getD y.toNat []).getD x.toNat 0

/-- State of the DDA march in `RaycastEngine::castRay`
(raycast_engine.cpp lines 42-57). -/
structure DdaState where
  sideDistX : ℚ
  sideDistY : ℚ
  mapX : ℤ
  mapY : ℤ
  side : ℤ
deriving Repr, DecidableEq

/-- One iteration of the DDA loop body: advance along whichever axis has the
smaller accumulated side distance (raycast_engine.cpp lines 43-51). -/
def ddaStep (deltaDistX deltaDistY : ℚ) (stepX stepY : ℤ) (s : DdaState) : DdaState :=
  if s.sideDistX < s.sideDistY then
    { s with sideDistX := s.sideDistX + deltaDistX, mapX := s.mapX + stepX, side := 0 }
  else
    { s with sideDistY := s.sideDistY + deltaDistY, mapY := s.mapY + stepY, side := 1 }

/-- Loop exit condition of the DDA march: the newly entered cell is outside
the map (treated as a wall) or holds a wall value 1
(raycast_engine.cpp lines 53-56). -/
def ddaStopCond (map : List (List ℤ)) (mapWidth mapHeight : ℤ) (s : DdaState) : Bool :=
  decide (s.mapX < 0) || decide (mapWidth ≤ s.mapX) ||
  decide (s.mapY < 0) || decide (mapHeight ≤ s.mapY) ||
  decide (mapCell map s.mapY s.mapX = 1)

/-- The `while (true)` DDA loop with fuel: the body always performs one step
and then tests the exit condition, exactly as the C++ loop does. -/
def ddaLoop (map : List (List ℤ)) (mapWidth mapHeight : ℤ)
    (deltaDistX deltaDistY : ℚ) (stepX stepY : ℤ) : ℕ → DdaState → DdaState
  | 0, s => s
  | Nat.succ fuel, s =>
    let t := ddaStep deltaDistX deltaDistY stepX stepY s
    if ddaStopCond map mapWidth mapHeight t then t
    else ddaLoop map mapWidth mapHeight deltaDistX deltaDistY stepX stepY fuel t

/-- Result of one ray cast.  `distance`, `wallType`, `wallX` are the three
out-parameters of `RaycastEngine::castRay`; `hitCellX`/`hitCellY` expose the
terminating cell of the march (the final values of the local variables
`mapX`/`mapY`) for specification purposes. -/
structure CastResult where
  distance : ℚ
  wallType : ℤ
  wallX : ℚ
  hitCellX : ℤ
  hitCellY : ℤ
deriving Repr, DecidableEq

/-- `RaycastEngine::castRay` (raycast_engine.cpp lines 7-72).
`cosF`/`sinF` stand for the C library `cos`/`sin`. -/
def castRay (cosF sinF : ℚ → ℚ) (rayAngle playerX playerY playerPitch : ℚ)
    (map : List (List ℤ)) (mapWidth mapHeight : ℤ) : CastResult :=
  let rayDirX := cosF rayAngle * cosF playerPitch
  let rayDirY := sinF rayAngle * cosF playerPitch
  let deltaDistX : ℚ := if rayDirX = 0 then 10 ^ 30 else |1 / rayDirX|
  let deltaDistY : ℚ := if rayDirY = 0 then 10 ^ 30 else |1 / rayDirY|
  let mapX0 := ratTrunc playerX
  let mapY0 := ratTrunc playerY
  let stepX : ℤ := if rayDirX < 0 then -1 else 1
  let sideDistX0 : ℚ :=
    if rayDirX < 0 then (playerX - (mapX0 : ℚ)) * deltaDistX
    else ((mapX0 : ℚ) + 1 - playerX) * deltaDistX
  let stepY : ℤ := if rayDirY < 0 then -1 else 1
  let sideDistY0 : ℚ :=
    if rayDirY < 0 then (playerY - (mapY0 : ℚ)) * deltaDistY
    else ((mapY0 : ℚ) + 1 - playerY) * deltaDistY
  let fuel := mapX0.natAbs + mapY0.natAbs + mapWidth.natAbs + mapHeight.natAbs + 4
  let final := ddaLoop map mapWidth mapHeight deltaDistX deltaDistY stepX stepY fuel
    { sideDistX := sideDistX0, sideDistY := sideDistY0, mapX := mapX0, mapY := mapY0, side := 0 }
  let rawDist : ℚ :=
    if final.side = 0 then final.sideDistX - deltaDistX else final.sideDistY - deltaDistY
  let wallX : ℚ :=
    if final.side = 0 then playerY + rawDist * rayDirY else playerX + rawDist * rayDirX
  { distance := rawDist * cosF playerPitch
    wallType := Int.tmod (final.mapX + final.mapY) 6
    wallX := wallX
    hitCellX := final.mapX
    hitCellY := final.mapY }

/-- `RaycastEngine::calculateIntensity` (raycast_engine.cpp lines 119-122). -/
def calculateIntensity (distance : ℚ) : ℕ :=
  max (toUInt8Wrap (255 * (1 - distance / MAX_DISTANCE))) 50

/-- `RaycastEngine::getWallColor` (raycast_engine.cpp lines 124-142);
returns (r, g, b). -/
def getWallColor (wallType : ℤ) (intensity : ℕ) : ℕ × ℕ × ℕ :=
  let baseColors : List (ℕ × ℕ × ℕ) :=
    [(34, 139, 34), (105, 105, 105), (128, 128, 128),
     (139, 69, 19), (160, 82, 45), (178, 34, 34)]
  if 0 ≤ wallType ∧ wallType < 6 then
    let c := baseColors.getD wallType.toNat (0, 0, 0)
    (c.1 * intensity / 255, c.2.1 * intensity / 255, c.2.2 * intensity / 255)
  else
    (intensity, intensity, intensity)

/-- `RaycastWorker::InternalPlayer` (worker_types.h), restricted to the fields
the engine reads. -/
structure InternalPlayer where
  x : ℚ
  y : ℚ
  angle : ℚ
  pitch : ℚ
deriving Repr, DecidableEq

/-- `RaycastWorker::InternalRenderRequest` (worker_types.h), restricted to the
fields the engine reads. -/
structure InternalRenderRequest where
  player : InternalPlayer
  screenWidth : ℤ
  screenHeight : ℤ
  fov : ℚ
  startColumn : ℤ
  endColumn : ℤ
  map : List (List ℤ)
  mapWidth : ℤ
  mapHeight : ℤ
deriving Repr, DecidableEq

/-- `RaycastWorker::InternalRaycastResult` (worker_types.h). -/
structure InternalRaycastResult where
  column : ℤ
  distance : ℚ
  wallType : ℤ
  wallX : ℚ
  wallTop : ℤ
  wallBottom : ℤ
  r : ℕ
  g : ℕ
  b : ℕ
deriving Repr, DecidableEq

/-- Body of the `for` loop in `RaycastEngine::renderColumns`
(raycast_engine.cpp lines 78-102), for screen column `x`.  A zero `distance`
makes `SCREEN_HEIGHT / distance` undefined in C++ (the spec's open question);
in `ℚ` division by zero yields the junk value 0, and no theorem below depends
on that case. -/
def renderColumn (cosF sinF : ℚ → ℚ) (request : InternalRenderRequest)
    (x : ℤ) : InternalRaycastResult :=
  let rayAngle := request.player.angle - request.fov / 2 +
    ((x : ℚ) * request.fov / (request.screenWidth : ℚ))
  let c := castRay cosF sinF rayAngle request.player.x request.player.y request.player.pitch
    request.map request.mapWidth request.mapHeight
  let wallHeight := ratTrunc ((SCREEN_HEIGHT : ℚ) / c.distance)
  let wallTop := Int.tdiv (SCREEN_HEIGHT - wallHeight) 2
  let wallBottom := wallTop + wallHeight
  let intensity := calculateIntensity c.distance
  let rgb := getWallColor c.wallType intensity
  { column := x
    distance := c.distance
    wallType := c.wallType
    wallX := c.wallX
    wallTop := wallTop
    wallBottom := wallBottom
    r := rgb.1
    g := rgb.2.1
    b := rgb.2.2 }

/-- `RaycastEngine::renderColumns` (raycast_engine.cpp lines 74-105): the loop
`for (int x = startColumn; x < endColumn; x++)` producing one result per
column. -/
def renderColumns (cosF sinF : ℚ → ℚ) (request : InternalRenderRequest) :
    List InternalRaycastResult :=
  (List.range (request.endColumn - request.startColumn).toNat).map
    (fun (k : ℕ) => renderColumn cosF sinF request (request.startColumn + (k : ℤ)))

end RaycastWorker

/-- gRPC status codes used by the repository (subset of `grpc::StatusCode`). -/
inductive GrpcStatusCode where
  | ok
  | unavailable
  | internal
  | other
deriving Repr, DecidableEq

/-- A `grpc::Status`: code plus error message. -/
structure GrpcStatus where
  code : GrpcStatusCode
  message : String
deriving Repr, DecidableEq

namespace RaycastWorker

/-- State of `RaycastWorkerServiceImpl` (worker.cpp lines 22-40): the
`activeJobs_`/`totalJobsProcessed_`/`totalProcessingTime_` atomics plus the
mirrored `status_` record that `GetWorkerStatus` reads. -/
structure WorkerServiceState where
  activeJobs : ℤ
  totalJobsProcessed : ℤ
  totalProcessingTime : ℚ
  statusStr : String
  statusActiveJobs : ℤ
  statusTotalJobs : ℤ
  statusAvgMs : ℚ
deriving Repr, DecidableEq

/-- Outcome of the body of the worker's `ProcessRenderRequest`: either the
raycasting completes (taking `processingMs` milliseconds) or an internal
exception is thrown somewhere in the `try` block. -/
inductive RenderOutcome where
  | success (processingMs : ℚ)
  | exn
deriving Repr, DecidableEq

/-- `RaycastWorkerServiceImpl::ProcessRenderRequest` (worker.cpp lines 42-122)
as a state transformer: increment the active-jobs counter and mark the status
"busy" on entry; on success update cumulative stats, decrement the counter and
recompute the status; on an internal exception return INTERNAL immediately,
skipping the decrement and the status recomputation. -/
def processRenderRequest (o : RenderOutcome) (s : WorkerServiceState) :
    GrpcStatus × WorkerServiceState :=
  let a : ℤ := s.activeJobs + 1
  let s1 := { s with activeJobs := a, statusActiveJobs := a, statusStr := "busy" }
  match o with
  | .exn => ({ code := .internal, message := "Internal processing error" }, s1)
  | .success ms =>
    let tj : ℤ := s1.totalJobsProcessed + 1
    let tt : ℚ := s1.totalProcessingTime + ms
    let s2 := { s1 with
      totalJobsProcessed := tj
      totalProcessingTime := tt
      statusTotalJobs := tj
      statusAvgMs := tt / (tj : ℚ) }
    let a2 : ℤ := s2.activeJobs - 1
    let s3 := { s2 with
      activeJobs := a2
      statusActiveJobs := a2
      statusStr := if 0 < a2 then "busy" else "idle" }
    ({ code := .ok, message := "" }, s3)

/-- The fields of the `WorkerStatus` protobuf reply filled in by
`RaycastWorkerServiceImpl::GetWorkerStatus` (worker.cpp lines 124-136). -/
structure WorkerStatusReply where
  status : String
  activeJobs : ℤ
  totalJobsProcessed : ℤ
  averageProcessingTimeMs : ℚ
deriving Repr, DecidableEq

/-- `RaycastWorkerServiceImpl::GetWorkerStatus` (worker.cpp lines 124-136):
a read-only projection of the `status_` record. -/
def getWorkerStatus (s : WorkerServiceState) : WorkerStatusReply :=
  { status := s.statusStr
    activeJobs := s.statusActiveJobs
    totalJobsProcessed := s.statusTotalJobs
    averageProcessingTimeMs := s.statusAvgMs }

end RaycastWorker

namespace RaycastMaster

/-- Outcome of one health probe attempt against a worker
(`stub_->GetWorkerStatus` inside `PerformHealthCheck`): the RPC returns OK,
returns a non-OK status, or throws a C++ exception. -/
inductive ProbeOutcome where
  | ok
  | rpcError
  | exn
deriving Repr, DecidableEq

/-- State of one `WorkerConnection` (worker_pool.cpp): endpoint identity,
whether a stub is connected, the cached health flag, the last-health-check
timestamp (abstract clock value), and the per-connection counters. -/
structure WorkerConnection where
  endpoint : String
  stubConnected : Bool
  healthy : Bool
  lastHealthCheck : ℤ
  activeJobs : ℤ
  totalJobsProcessed : ℕ
  totalProcessingTimeMs : ℚ
deriving Repr, DecidableEq

/-- `WorkerConnection::PerformHealthCheck` (worker_pool.cpp lines 59-93):
with no stub, store `healthy := false` and return false without touching the
timestamp; otherwise issue the probe — if the RPC completes (OK or non-OK
status) store the flag and refresh the timestamp, but if it throws, the
`catch` block only stores `healthy := false` and never reaches the timestamp
update.  Returns (returned bool, updated connection). -/
def performHealthCheck (now : ℤ) (probe : ProbeOutcome) (c : WorkerConnection) :
    Bool × WorkerConnection :=
  if c.stubConnected = false then
    (false, { c with healthy := false })
  else
    match probe with
    | .ok => (true, { c with healthy := true, lastHealthCheck := now })
    | .rpcError => (false, { c with healthy := false, lastHealthCheck := now })
    | .exn => (false, { c with healthy := false })

/-- `WorkerConnection::IsHealthy` (worker_pool.cpp lines 37-53): re-probe only
when the cached flag is older than the TTL (`intervalSeconds`, default 30),
else return the cached flag unchanged. -/
def isHealthy (now intervalSeconds : ℤ) (probe : ProbeOutcome) (c : WorkerConnection) :
    Bool × WorkerConnection :=
  if intervalSeconds < now - c.lastHealthCheck then performHealthCheck now probe c
  else (c.healthy, c)

/-- The `WorkerConnection(endpoint)` constructor followed by `Connect()`
(worker_pool.cpp lines 11-30): the initial timestamp is `now`, the stub is
created (`stubOk`; false models a throwing channel construction) and one
initial health probe runs. -/
def mkWorkerConnection (e : String) (now : ℤ) (stubOk : Bool) (probe : ProbeOutcome) :
    WorkerConnection :=
  (performHealthCheck now probe
    { endpoint := e, stubConnected := stubOk, healthy := false, lastHealthCheck := now,
      activeJobs := 0, totalJobsProcessed := 0, totalProcessingTimeMs := 0 }).2

/-- The pool's membership view: the ordered list of endpoints of
`WorkerPool::workers_`. -/
def endpoints (pool : List WorkerConnection) : List String :=
  pool.map (fun c => c.endpoint)

/-- A health check performed on the pool member with endpoint `e` (the pool
itself is untouched by `PerformHealthCheck`; only that connection's own state
changes). -/
def healthCheckPool (e : String) (now : ℤ) (probe : ProbeOutcome)
    (pool : List WorkerConnection) : List WorkerConnection :=
  pool.map (fun c => if c.endpoint = e then (performHealthCheck now probe c).2 else c)

/-- An `IsHealthy` query on the pool member with endpoint `e` (may trigger a
re-probe of that member when its TTL expired). -/
def isHealthyPool (e : String) (now intervalSeconds : ℤ) (probe : ProbeOutcome)
    (pool : List WorkerConnection) : List WorkerConnection :=
  pool.map (fun c => if c.endpoint = e then (isHealthy now intervalSeconds probe c).2 else c)

/-- `WorkerPool::DiscoverWorkers` (worker_pool.cpp lines 195-231): erase the
connections whose endpoint is absent from the resolved set `observed`, then
for each observed endpoint not already present construct a connection and keep
it only when its initial probe succeeded (`IsHealthy` on a freshly constructed
connection returns the cached flag, since its timestamp was just set). -/
def discoverWorkers (observed : List String) (now : ℤ)
    (stubOkOf : String → Bool) (probeOf : String → ProbeOutcome)
    (pool : List WorkerConnection) : List WorkerConnection :=
  let kept := pool.filter (fun c => decide (c.endpoint ∈ observed))
  observed.foldl (fun acc e =>
    if acc.any (fun c => c.endpoint == e) then acc
    else
      let w := mkWorkerConnection e now (stubOkOf e) (probeOf e)
      if w.healthy then acc ++ [w] else acc) kept

/-- `WorkerPool::AddWorker` (worker_pool.cpp lines 261-277). -/
def addWorker (e : String) (now : ℤ) (stubOk : Bool) (probe : ProbeOutcome)
    (pool : List WorkerConnection) : List WorkerConnection :=
  if pool.any (fun c => c.endpoint == e) then pool
  else
    let w := mkWorkerConnection e now stubOk probe
    if w.healthy then pool ++ [w] else pool

/-- `WorkerPool::RemoveWorker` (worker_pool.cpp lines 279-291). -/
def removeWorker (e : String) (pool : List WorkerConnection) : List WorkerConnection :=
  pool.filter (fun c => decide (¬ c.endpoint = e))

/-- `size_t` wraps at 2^64 on the 64-bit targets this repository builds for
(`std::atomic<size_t> round_robin_index_`). -/
def SIZE_T_LIMIT : ℕ := 2 ^ 64

/-- `LoadBalancer::SelectRoundRobin` (load_balancer.cpp lines 55-63) over an
abstract element type standing for `WorkerConnection*`: on the empty snapshot
return null; otherwise `round_robin_index_.fetch_add(1)` returns the old
counter (wrapping the stored value at 2^64) and the worker at
`old % workers.size()` is selected.  Returns (selected worker, new counter). -/
def selectRoundRobinStep {α : Type} (healthy : List α) (rrCounter : ℕ) :
    Option α × ℕ :=
  if healthy.isEmpty then (none, rrCounter)
  else (healthy.get? (rrCounter % healthy.length), (rrCounter + 1) % SIZE_T_LIMIT)

/-- `n` consecutive `SelectRoundRobin` calls over a fixed healthy snapshot
(the "no pool change" hypothesis of the spec), threading the atomic counter. -/
def roundRobinRun {α : Type} (healthy : List α) : ℕ → ℕ → List (Option α)
  | 0, _ => []
  | Nat.succ n, c =>
    (selectRoundRobinStep healthy c).1 ::
      roundRobinRun healthy n (selectRoundRobinStep healthy c).2

/-- `LoadBalancer::GetNextWorker` (load_balancer.cpp lines 14-35): null on an
empty healthy snapshot, otherwise one of the strategy selectors picks a
worker; `choose` abstracts over the four strategies, each of which returns an
element of the snapshot. -/
def getNextWorker {α : Type} (healthy : List α) (choose : List α → Option α) :
    Option α :=
  if healthy.isEmpty then none else choose healthy

/-- The response fields of `RaycastResponse` that
`MasterServiceImpl::ProcessRaycastRequest` sets on the dispatch paths. -/
structure RaycastResponseModel where
  success : Bool
  errorMessage : String
  workerEndpoint : String
deriving Repr, DecidableEq

/-- `MasterServiceImpl::ProcessRaycastRequest` (unnamed/part_002 lines 19-72)
restricted to its dispatch logic: take the healthy snapshot, ask the balancer
for a worker; if none, fail immediately with UNAVAILABLE and dispatch to no
worker; otherwise forward to exactly the chosen worker (`callWorker` models
`WorkerConnection::ProcessRenderRequest`'s returned status) and relay the
outcome.  The third component lists every worker the request was forwarded to,
making "no queueing, no internal retry" expressible. -/
def processRaycastRequest (healthySnapshot : List WorkerConnection)
    (choose : List WorkerConnection → Option WorkerConnection)
    (callWorker : WorkerConnection → GrpcStatus) :
    RaycastResponseModel × GrpcStatus × List WorkerConnection :=
  match getNextWorker healthySnapshot choose with
  | none =>
    ({ success := false, errorMessage := "No workers available", workerEndpoint := "" },
     { code := .unavailable, message := "No workers available" }, [])
  | some w =>
    let st := callWorker w
    if st.code = GrpcStatusCode.ok then
      ({ success := true, errorMessage := "", workerEndpoint := w.endpoint }, st, [w])
    else
      ({ success := false, errorMessage := st.message, workerEndpoint := "" }, st, [w])

/-- The master's aggregate counters
(`total_requests_processed_`, `total_response_time_ms_` in master_server.h). -/
structure MasterStats where
  totalRequestsProcessed : ℕ
  totalResponseTimeMs : ℚ
deriving Repr, DecidableEq

/-- The scalar fields of the `MasterStatus` reply filled in by
`MasterServiceImpl::GetMasterStatus` (unnamed/part_002 lines 74-111). -/
structure MasterStatusReply where
  totalWorkers : ℕ
  activeWorkers : ℕ
  totalRequestsProcessed : ℕ
  averageResponseTimeMs : ℚ
deriving Repr, DecidableEq

/-- `MasterServiceImpl::GetMasterStatus` (unnamed/part_002 lines 74-111):
`average_response_time_ms` is computed at read time as
`count > 0 ? total / count : 0.0`. -/
def getMasterStatus (pool : List WorkerConnection) (stats : MasterStats) :
    MasterStatusReply :=
  { totalWorkers := pool.length
    activeWorkers := (pool.filter (fun c => c.healthy)).length
    totalRequestsProcessed := stats.totalRequestsProcessed
    averageResponseTimeMs :=
      if 0 < stats.totalRequestsProcessed then
        stats.totalResponseTimeMs / (stats.totalRequestsProcessed : ℚ)
      else 0 }

end RaycastMaster

/-! ## Helper lemmas -/

namespace RaycastWorker

/-- Truncating remainder by 6 always lies strictly between -6 and 6, and is
non-negative on non-negative arguments (the semantics of C++ `% 6`). -/
theorem tmod_six_bounds (a : ℤ) :
    -6 < a.tmod 6 ∧ a.tmod 6 < 6 ∧ (0 ≤ a → 0 ≤ a.tmod 6) := by
  cases a with
  | ofNat m =>
    have h : m % 6 < 6 := Nat.mod_lt m (by omega)
    refine ⟨?_, ?_, ?_⟩ <;> simp [Int.tmod] <;> omega
  | negSucc m =>
    have h : (m + 1) % 6 < 6 := Nat.mod_lt (m + 1) (by omega)
    refine ⟨?_, ?_, ?_⟩ <;> simp [Int.tmod, Nat.succ_eq_add_one] <;> omega

/-- `ratTrunc` agrees with the floor on non-negative rationals. -/
theorem ratTrunc_eq_floor_of_nonneg {q : ℚ} (h : 0 ≤ q) : ratTrunc q = ⌊q⌋ := by
  simp [ratTrunc, h]

/-- `toUInt8Wrap` is the identity composed with `Int.toNat ∘ Int.floor` on
`[0, 256)` — the range where the C++ cast is actually defined. -/
theorem toUInt8Wrap_of_mem {q : ℚ} (h0 : 0 ≤ q) (h1 : q < 256) :
    toUInt8Wrap q = (⌊q⌋).toNat := by
  have hfl : (0 : ℤ) ≤ ⌊q⌋ := Int.floor_nonneg.mpr h0
  have hlt : ⌊q⌋ < 256 := by
    have := Int.floor_le q
    have h256 : (⌊q⌋ : ℚ) < 256 := lt_of_le_of_lt this h1
    exact_mod_cast h256
  simp [toUInt8Wrap, ratTrunc_eq_floor_of_nonneg h0, Int.emod_eq_of_lt hfl hlt]

end RaycastWorker

/-! ## Claim C2 — wallType range -/

namespace RaycastWorker

/-- C2 counterexample: with the ray direction `(-1, 0)` (attained by real
`cos`/`sin` at `rayAngle = π`, `playerPitch = 0`; the oracle returns
`cos 0 = 1` for the pitch and `-1` for the yaw) from position `(1/2, 1/2)` in
the all-open 1×1 map, the DDA march leaves the map through its negative-x
side, the terminating cell is `(-1, 0)`, and C++ `(-1 + 0) % 6` is `-1` —
outside `[0, 6)`, so the claim as stated is false. -/
theorem castRay_wallType_cex :
    (castRay (fun q => if q = 0 then 1 else -1) (fun _ => 0)
      1 (1/2) (1/2) 0 [[0]] 1 1).wallType = -1 ∧
    ¬ (0 ≤ (castRay (fun q => if q = 0 then 1 else -1) (fun _ => 0)
      1 (1/2) (1/2) 0 [[0]] 1 1).wallType ∧
       (castRay (fun q => if q = 0 then 1 else -1) (fun _ => 0)
      1 (1/2) (1/2) 0 [[0]] 1 1).wallType < 6) := by
  have h : (castRay (fun q => if q = 0 then 1 else -1) (fun _ => 0)
      1 (1/2) (1/2) 0 [[0]] 1 1).wallType = -1 := by
    norm_num [castRay, ddaLoop, ddaStep, ddaStopCond, mapCell, ratTrunc]
    decide
  refine ⟨h, ?_⟩
  rw [h]
  omega

/-- C2 (amended): for every input, `wallType` is the C++ truncating remainder
`(hitCellX + hitCellY) % 6`, hence lies strictly between -6 and 6; it lies in
`[0, 6)` whenever the terminating cell's coordinate sum is non-negative, but
is negative when the march exits the map making that sum negative. -/
theorem castRay_wallType_range (cosF sinF : ℚ → ℚ)
    (rayAngle playerX playerY playerPitch : ℚ)
    (map : List (List ℤ)) (mapWidth mapHeight : ℤ) :
    (castRay cosF sinF rayAngle playerX playerY playerPitch map mapWidth mapHeight).wallType =
      Int.tmod
        ((castRay cosF sinF rayAngle playerX playerY playerPitch map mapWidth mapHeight).hitCellX +
         (castRay cosF sinF rayAngle playerX playerY playerPitch map mapWidth mapHeight).hitCellY) 6 ∧
    -6 < (castRay cosF sinF rayAngle playerX playerY playerPitch map mapWidth mapHeight).wallType ∧
    (castRay cosF sinF rayAngle playerX playerY playerPitch map mapWidth mapHeight).wallType < 6 ∧
    (0 ≤ (castRay cosF sinF rayAngle playerX playerY playerPitch map mapWidth mapHeight).hitCellX +
         (castRay cosF sinF rayAngle playerX playerY playerPitch map mapWidth mapHeight).hitCellY →
      0 ≤ (castRay cosF sinF rayAngle playerX playerY playerPitch map mapWidth mapHeight).wallType) := by
  have h := tmod_six_bounds
    ((castRay cosF sinF rayAngle playerX playerY playerPitch map mapWidth mapHeight).hitCellX +
     (castRay cosF sinF rayAngle playerX playerY playerPitch map mapWidth mapHeight).hitCellY)
  exact ⟨rfl, h.1, h.2.1, h.2.2⟩

/-- C2 witness: a ray cast along `+x` from `(3/2, 3/2)` inside the 3×3
boundary-walled map terminates at cell `(2, 1)` with non-negative coordinate
sum, so the amended theorem yields `0 ≤ wallType` there. -/
theorem castRay_wallType_range_witness :
    0 ≤ (castRay (fun _ => 1) (fun _ => 0) 0 (3/2) (3/2) 0
          [[1,1,1],[1,0,1],[1,1,1]] 3 3).hitCellX +
        (castRay (fun _ => 1) (fun _ => 0) 0 (3/2) (3/2) 0
          [[1,1,1],[1,0,1],[1,1,1]] 3 3).hitCellY ∧
    0 ≤ (castRay (fun _ => 1) (fun _ => 0) 0 (3/2) (3/2) 0
          [[1,1,1],[1,0,1],[1,1,1]] 3 3).wallType :=
  ⟨by norm_num [castRay, ddaLoop, ddaStep, ddaStopCond, mapCell, ratTrunc]; decide,
   (castRay_wallType_range (fun _ => 1) (fun _ => 0) 0 (3/2) (3/2) 0
      [[1,1,1],[1,0,1],[1,1,1]] 3 3).2.2.2
    (by norm_num [castRay, ddaLoop, ddaStep, ddaStopCond, mapCell, ratTrunc]; decide)⟩

/-! ## Claim C4 — shading intensity -/

/-- Modelled from the spec (claim C4): the exact real-valued shading formula
`max(50, 255·(1 − distance/MAX_DISTANCE))`, for comparison with the code's
`calculateIntensity`. -/
def intensitySpecFormula (distance : ℚ) : ℚ :=
  max 50 (255 * (1 - distance / MAX_DISTANCE))

/-- C4 counterexample: at distance 810 the argument of the `uint8_t` cast is
`-51/16`, which wraps to 253, so `calculateIntensity 810 = 253` while the
spec formula gives 50; at distance 400 the code truncates `127.5` to 127;
and `calculateIntensity 790 = 50 < 253 = calculateIntensity 810` refutes
monotone non-increase beyond `MAX_DISTANCE`. -/
theorem calculateIntensity_cex :
    ((calculateIntensity 810 : ℚ) ≠ intensitySpecFormula 810) ∧
    ((calculateIntensity 400 : ℚ) ≠ intensitySpecFormula 400) ∧
    calculateIntensity 790 < calculateIntensity 810 := by
  have h810 : calculateIntensity 810 = 253 := by
    have ht : ratTrunc (255 * (1 - (810 : ℚ) / 800)) = -3 := by
      rw [show (255 : ℚ) * (1 - 810 / 800) = -51 / 16 by norm_num]
      norm_num [ratTrunc, Int.ceil_eq_iff]
    rw [calculateIntensity, show MAX_DISTANCE = 800 from rfl, toUInt8Wrap, ht]
    decide
  have h400 : calculateIntensity 400 = 127 := by
    have ht : ratTrunc (255 * (1 - (400 : ℚ) / 800)) = 127 := by
      rw [show (255 : ℚ) * (1 - 400 / 800) = 255 / 2 by norm_num]
      norm_num [ratTrunc]
    rw [calculateIntensity, show MAX_DISTANCE = 800 from rfl, toUInt8Wrap, ht]
    decide
  have h790 : calculateIntensity 790 = 50 := by
    have ht : ratTrunc (255 * (1 - (790 : ℚ) / 800)) = 3 := by
      rw [show (255 : ℚ) * (1 - 790 / 800) = 51 / 16 by norm_num]
      norm_num [ratTrunc]
    rw [calculateIntensity, show MAX_DISTANCE = 800 from rfl, toUInt8Wrap, ht]
    decide
  refine ⟨?_, ?_, ?_⟩
  · rw [h810]
    norm_num [intensitySpecFormula, MAX_DISTANCE, max_def]
  · rw [h400]
    norm_num [intensitySpecFormula, MAX_DISTANCE, max_def]
  · rw [h790, h810]
    decide

/-- C4 (amended): for `0 ≤ d ≤ d' ≤ MAX_DISTANCE = 800` the intensity equals
`max(50, ⌊255·(1 − d/800)⌋)` (the cast truncates the real-valued formula), and
on that range it is monotonically non-increasing; the 50 floor holds for every
distance whatsoever.  Beyond 800 the cast of a negative value wraps modulo 256
and monotonicity fails (see the counterexample). -/
theorem calculateIntensity_amended (d dBig : ℚ) (h0 : 0 ≤ d) (hless : d ≤ dBig)
    (h800 : dBig ≤ 800) :
    calculateIntensity d = max 50 ((⌊255 * (1 - d / 800)⌋).toNat) ∧
    calculateIntensity dBig ≤ calculateIntensity d ∧
    (∀ e : ℚ, 50 ≤ calculateIntensity e) := by
  have key : ∀ x : ℚ, 0 ≤ x → x ≤ 800 →
      calculateIntensity x = max 50 ((⌊255 * (1 - x / 800)⌋).toNat) := by
    intro x hx0 hx8
    have hv0 : (0 : ℚ) ≤ 255 * (1 - x / 800) := by linarith
    have hv1 : 255 * (1 - x / 800) < 256 := by linarith
    rw [calculateIntensity, show MAX_DISTANCE = 800 from rfl,
      toUInt8Wrap_of_mem hv0 hv1]
    exact max_comm _ 50
  refine ⟨key d h0 (le_trans hless h800), ?_, ?_⟩
  · rw [key d h0 (le_trans hless h800), key dBig (le_trans h0 hless) h800]
    have hfl : ⌊255 * (1 - dBig / 800)⌋ ≤ ⌊255 * (1 - d / 800)⌋ := by
      apply Int.floor_le_floor
      linarith
    exact max_le_max (le_refl 50) (Int.toNat_le_toNat hfl)
  · intro e
    exact le_max_right _ 50

/-- C4 witness: instantiating the amended theorem at `d = 400`, `dBig = 600`
gives `calculateIntensity 400 = max 50 127 = 127` and
`calculateIntensity 600 ≤ calculateIntensity 400`. -/
theorem calculateIntensity_amended_witness :
    calculateIntensity 400 = max 50 ((⌊(255 : ℚ) * (1 - 400 / 800)⌋).toNat) ∧
    calculateIntensity 600 ≤ calculateIntensity 400 :=
  ⟨(calculateIntensity_amended 400 600 (by norm_num) (by norm_num) (by norm_num)).1,
   (calculateIntensity_amended 400 600 (by norm_num) (by norm_num) (by norm_num)).2.1⟩

/-! ## Claim C10 — getWallColor totality -/

/-- C10: for every `wallType` outside `[0, 6)` — in particular the negative
values castRay can produce — `getWallColor` falls back to the grayscale triple
`(intensity, intensity, intensity)` instead of indexing the 6-entry base-color
table. -/
theorem getWallColor_fallback (w : ℤ) (i : ℕ) (h : w < 0 ∨ 6 ≤ w) :
    getWallColor w i = (i, i, i) := by
  simp only [getWallColor]
  rw [if_neg]
  rintro ⟨h1, h2⟩
  omega

/-- C10 witness: `getWallColor (-1) 200 = (200, 200, 200)`. -/
theorem getWallColor_fallback_witness :
    ((-1 : ℤ) < 0 ∨ (6 : ℤ) ≤ -1) ∧ getWallColor (-1) 200 = (200, 200, 200) :=
  ⟨Or.inl (by decide), getWallColor_fallback (-1) 200 (Or.inl (by decide))⟩

end RaycastWorker

/-! ## Claim C1 — renderColumns covers exactly the requested column range -/

namespace RaycastWorker

/-- The column field of a rendered column is the loop variable itself. -/
theorem renderColumn_column (cosF sinF : ℚ → ℚ) (request : InternalRenderRequest)
    (x : ℤ) : (renderColumn cosF sinF request x).column = x := rfl

/-- C1: for every render job with `0 ≤ startColumn < endColumn ≤ screenWidth`,
`renderColumns` returns exactly `endColumn − startColumn` results whose column
fields are ascending and contiguous starting at `startColumn`. -/
theorem renderColumns_contiguous (cosF sinF : ℚ → ℚ)
    (request : InternalRenderRequest)
    (h0 : 0 ≤ request.startColumn)
    (h1 : request.startColumn < request.endColumn)
    (h2 : request.endColumn ≤ request.screenWidth) :
    ((renderColumns cosF sinF request).length : ℤ) =
      request.endColumn - request.startColumn ∧
    (renderColumns cosF sinF request).map (fun r => r.column) =
      (List.range (request.endColumn - request.startColumn).toNat).map
        (fun (k : ℕ) => request.startColumn + (k : ℤ)) := by
  constructor
  · simp only [renderColumns, List.length_map, List.length_range]
    omega
  · simp only [renderColumns, List.map_map]
    congr 1

/-- Concrete request for the C1 witness: columns `[1, 3)` of a 4-wide screen
over the 3×3 boundary-walled map. -/
def reqW : InternalRenderRequest :=
  ⟨⟨3/2, 3/2, 0, 0⟩, 4, 768, 1, 1, 3, [[1,1,1],[1,0,1],[1,1,1]], 3, 3⟩

/-- C1 witness: on `reqW` the hypotheses hold and the render yields columns
`[1, 2]`. -/
theorem renderColumns_contiguous_witness :
    (0 ≤ reqW.startColumn ∧ reqW.startColumn < reqW.endColumn ∧
      reqW.endColumn ≤ reqW.screenWidth) ∧
    ((renderColumns (fun _ => 1) (fun _ => 0) reqW).length : ℤ) =
      reqW.endColumn - reqW.startColumn ∧
    (renderColumns (fun _ => 1) (fun _ => 0) reqW).map (fun r => r.column) =
      (List.range (reqW.endColumn - reqW.startColumn).toNat).map
        (fun (k : ℕ) => reqW.startColumn + (k : ℤ)) :=
  ⟨⟨by decide, by decide, by decide⟩,
   (renderColumns_contiguous (fun _ => 1) (fun _ => 0) reqW
     (by decide) (by decide) (by decide)).1,
   (renderColumns_contiguous (fun _ => 1) (fun _ => 0) reqW
     (by decide) (by decide) (by decide)).2⟩

end RaycastWorker

/-! ## Claim C9 — exception path leaks the active-jobs counter -/

namespace RaycastWorker

/-- C9: when the worker's `ProcessRenderRequest` catches an internal exception
it returns INTERNAL without decrementing the active-jobs counter incremented
on entry: `GetWorkerStatus` afterwards reports `active_jobs` one greater than
before the call and the status string stays "busy". -/
theorem processRenderRequest_exn_leak (s : WorkerServiceState)
    (h : s.statusActiveJobs = s.activeJobs) :
    (processRenderRequest RenderOutcome.exn s).1.code = GrpcStatusCode.internal ∧
    (getWorkerStatus (processRenderRequest RenderOutcome.exn s).2).activeJobs =
      (getWorkerStatus s).activeJobs + 1 ∧
    (getWorkerStatus (processRenderRequest RenderOutcome.exn s).2).status = "busy" := by
  refine ⟨rfl, ?_, rfl⟩
  simp [processRenderRequest, getWorkerStatus, h]

/-- C9 witness: from the freshly initialized worker state (idle, zero jobs) a
failed request leaves `active_jobs = 1` and status "busy". -/
theorem processRenderRequest_exn_leak_witness :
    (processRenderRequest RenderOutcome.exn
      ⟨0, 0, 0, "idle", 0, 0, 0⟩).1.code = GrpcStatusCode.internal ∧
    (getWorkerStatus (processRenderRequest RenderOutcome.exn
      ⟨0, 0, 0, "idle", 0, 0, 0⟩).2).activeJobs =
      (getWorkerStatus ⟨0, 0, 0, "idle", 0, 0, 0⟩).activeJobs + 1 ∧
    (getWorkerStatus (processRenderRequest RenderOutcome.exn
      ⟨0, 0, 0, "idle", 0, 0, 0⟩).2).status = "busy" :=
  processRenderRequest_exn_leak ⟨0, 0, 0, "idle", 0, 0, 0⟩ rfl

end RaycastWorker

/-! ## Claims C3, C5, C8 — master dispatch, health checks, status average -/

namespace RaycastMaster

/-- C3: when the balancer finds no worker, `ProcessRaycastRequest` fails
immediately: `success = false`, `error_message = "No workers available"`,
status UNAVAILABLE, and the job is dispatched to no worker at all (no
queueing, no internal retry). -/
theorem processRaycastRequest_noWorkers (healthySnapshot : List WorkerConnection)
    (choose : List WorkerConnection → Option WorkerConnection)
    (callWorker : WorkerConnection → GrpcStatus)
    (h : getNextWorker healthySnapshot choose = none) :
    processRaycastRequest healthySnapshot choose callWorker =
      ({ success := false, errorMessage := "No workers available", workerEndpoint := "" },
       { code := GrpcStatusCode.unavailable, message := "No workers available" }, []) := by
  unfold processRaycastRequest
  rw [h]

/-- C3 witness: the empty healthy snapshot makes the balancer return none and
the master reply with the unavailable response. -/
theorem processRaycastRequest_noWorkers_witness :
    getNextWorker ([] : List WorkerConnection) (fun _ => none) = none ∧
    processRaycastRequest [] (fun _ => none) (fun _ => ⟨GrpcStatusCode.ok, ""⟩) =
      ({ success := false, errorMessage := "No workers available", workerEndpoint := "" },
       { code := GrpcStatusCode.unavailable, message := "No workers available" }, []) :=
  ⟨rfl, processRaycastRequest_noWorkers [] (fun _ => none)
    (fun _ => ⟨GrpcStatusCode.ok, ""⟩) rfl⟩

/-- C5 counterexample: when the probe throws an exception, the `catch` block
stores the health flag but never reaches the timestamp update, so the
last-health-check timestamp is NOT refreshed (it stays 0 instead of becoming
5) — the claim's "always refreshes the timestamp regardless of outcome" is
false on the exception path (and likewise on the no-stub path). -/
theorem performHealthCheck_exn_cex :
    (performHealthCheck 5 ProbeOutcome.exn
      { endpoint := "w", stubConnected := true, healthy := true, lastHealthCheck := 0,
        activeJobs := 0, totalJobsProcessed := 0, totalProcessingTimeMs := 0
        }).2.lastHealthCheck = 0 ∧
    (performHealthCheck 5 ProbeOutcome.exn
      { endpoint := "w", stubConnected := true, healthy := true, lastHealthCheck := 0,
        activeJobs := 0, totalJobsProcessed := 0, totalProcessingTimeMs := 0
        }).2.lastHealthCheck ≠ 5 := by
  refine ⟨rfl, ?_⟩
  intro h
  exact absurd h (by decide)

/-- C5 (amended): `PerformHealthCheck` sets the health flag from the outcome
in every case (true exactly when a stub exists and the probe returns OK) and
returns that flag, but refreshes the last-check timestamp only when a stub
exists and the RPC completes without throwing (OK or non-OK status); the
exception and no-stub paths leave the timestamp unchanged. -/
theorem performHealthCheck_amended (now : ℤ) (probe : ProbeOutcome)
    (c : WorkerConnection) :
    (performHealthCheck now probe c).2.healthy =
      (c.stubConnected && (probe == ProbeOutcome.ok)) ∧
    (performHealthCheck now probe c).1 = (performHealthCheck now probe c).2.healthy ∧
    (performHealthCheck now probe c).2.lastHealthCheck =
      (if (c.stubConnected && !(probe == ProbeOutcome.exn)) = true then now
       else c.lastHealthCheck) := by
  cases hb : c.stubConnected <;> cases probe <;>
    simp [performHealthCheck, hb]

/-- C8: `GetMasterStatus` reports `average_response_time_ms` equal to
`total_response_time_ms / total_requests_processed`, and 0 when the request
counter is 0. -/
theorem getMasterStatus_average (pool : List WorkerConnection) (stats : MasterStats) :
    (stats.totalRequestsProcessed = 0 →
      (getMasterStatus pool stats).averageResponseTimeMs = 0) ∧
    (0 < stats.totalRequestsProcessed →
      (getMasterStatus pool stats).averageResponseTimeMs =
        stats.totalResponseTimeMs / (stats.totalRequestsProcessed : ℚ)) := by
  constructor
  · intro h
    simp [getMasterStatus, h]
  · intro h
    simp [getMasterStatus, h]

/-- C8 witness: with no requests the average is 0; with 4 requests totalling
10 ms it is 10/4. -/
theorem getMasterStatus_average_witness :
    (getMasterStatus [] ⟨0, 5⟩).averageResponseTimeMs = 0 ∧
    (getMasterStatus [] ⟨4, 10⟩).averageResponseTimeMs =
      (⟨4, 10⟩ : MasterStats).totalResponseTimeMs /
        ((⟨4, 10⟩ : MasterStats).totalRequestsProcessed : ℚ) :=
  ⟨(getMasterStatus_average [] ⟨0, 5⟩).1 rfl,
   (getMasterStatus_average [] ⟨4, 10⟩).2 (by decide)⟩

end RaycastMaster

/-! ## Claim C7 — round robin fairness -/

namespace RaycastMaster

/-- Unfolding of a consecutive round-robin run while the 64-bit counter does
not wrap: the k-th call selects index `(c + k) mod N`. -/
theorem roundRobinRun_eq {α : Type} (healthy : List α)
    (hne : healthy.isEmpty = false) :
    ∀ (n c : ℕ), c + n ≤ SIZE_T_LIMIT →
      roundRobinRun healthy n c =
        (List.range n).map (fun k => healthy.get? ((c + k) % healthy.length)) := by
  intro n
  induction n with
  | zero =>
    intro c _
    simp [roundRobinRun]
  | succ m ih =>
    intro c h
    rw [roundRobinRun]
    simp only [selectRoundRobinStep, hne, Bool.false_eq_true, if_false]
    cases m with
    | zero =>
      simp [roundRobinRun, List.range_succ]
    | succ m2 =>
      have hc : (c + 1) % SIZE_T_LIMIT = c + 1 := Nat.mod_eq_of_lt (by omega)
      rw [hc, ih (c + 1) (by omega)]
      conv_rhs => rw [List.range_succ_eq_map, List.map_cons, List.map_map]
      congr 1
      congr 1
      funext k
      simp only [Function.comp, Nat.succ_eq_add_one]
      rw [show c + 1 + k = c + (k + 1) from by omega]

/-- C7 (amended): with `N` healthy workers and no pool change, `N` consecutive
`SelectRoundRobin` calls visit each worker exactly once, for every starting
counter value `c` such that the 64-bit counter does not wrap during the
window (`c + N ≤ 2^64`); at the wrap boundary fairness can break (see the
counterexample). -/
theorem selectRoundRobin_cycle {α : Type} (healthy : List α) (c : ℕ)
    (hne : healthy ≠ []) (hwrap : c + healthy.length ≤ SIZE_T_LIMIT) :
    (roundRobinRun healthy healthy.length c).Perm (healthy.map some) := by
  have hlen : 0 < healthy.length := List.length_pos.mpr hne
  rw [roundRobinRun_eq healthy (by simpa [List.isEmpty_iff]) healthy.length c hwrap]
  have hrot : (List.range healthy.length).map
      (fun k => healthy.get? ((c + k) % healthy.length)) =
      (healthy.rotate (c % healthy.length)).map some := by
    apply List.ext_get
    · simp
    · intro i h1 h2
      have hi : i < healthy.length := by simpa using h1
      have hmod : (c + i) % healthy.length < healthy.length := Nat.mod_lt _ hlen
      simp only [List.get_eq_getElem, List.getElem_map, List.getElem_range]
      rw [List.getElem_rotate]
      rw [List.get?_eq_getElem?, List.getElem?_eq_getElem hmod]
      congr 2
      calc (c + i) % healthy.length
          = (i + c) % healthy.length := by rw [Nat.add_comm]
        _ = (i + c % healthy.length) % healthy.length :=
            (Nat.ModEq.add_left i (Nat.mod_modEq c healthy.length)).symm
  rw [hrot]
  exact (List.rotate_perm healthy (c % healthy.length)).map some

/-- C7 witness: three workers, starting counter 5 (no wrap): the three calls
select a permutation of the workers. -/
theorem selectRoundRobin_cycle_witness :
    (roundRobinRun [10, 20, 30] 3 5).Perm ([10, 20, 30].map some) :=
  selectRoundRobin_cycle [10, 20, 30] 5 (by decide) (by decide)

/-- C7 counterexample: at the 64-bit wraparound boundary (starting counter
`2^64 − 1`, three healthy workers) the three consecutive calls select workers
0, 0, 1 — worker 2 is never visited, because `(2^64 − 1) mod 3 = 0` and the
counter wraps to 0, so the claim's "for every starting index value" is false. -/
theorem selectRoundRobin_cycle_cex :
    roundRobinRun [0, 1, 2] 3 (SIZE_T_LIMIT - 1) = [some 0, some 0, some 1] ∧
    ¬ (roundRobinRun [0, 1, 2] 3 (SIZE_T_LIMIT - 1)).Perm ([0, 1, 2].map some) := by
  constructor
  · decide
  · decide

end RaycastMaster

/-! ## Claim C6 — health checks never change pool membership -/

namespace RaycastMaster

/-- The non-health fields of a connection: endpoint identity, stub, and the
per-connection counters.  A health probe may change only what is outside this
projection (the health flag and the last-check timestamp). -/
def connCore (c : WorkerConnection) : String × Bool × ℤ × ℕ × ℚ :=
  (c.endpoint, c.stubConnected, c.activeJobs, c.totalJobsProcessed, c.totalProcessingTimeMs)

/-- A health probe never changes a connection's non-health fields. -/
theorem performHealthCheck_connCore (now : ℤ) (probe : ProbeOutcome)
    (c : WorkerConnection) :
    connCore (performHealthCheck now probe c).2 = connCore c := by
  cases hb : c.stubConnected <;> cases probe <;>
    simp [performHealthCheck, connCore, hb]

/-- An `IsHealthy` query never changes a connection's non-health fields. -/
theorem isHealthy_connCore (now ttl : ℤ) (probe : ProbeOutcome)
    (c : WorkerConnection) :
    connCore (isHealthy now ttl probe c).2 = connCore c := by
  unfold isHealthy
  by_cases h : ttl < now - c.lastHealthCheck
  · simp [h, performHealthCheck_connCore]
  · simp [h]

/-- A fold that only ever appends to its accumulator preserves membership. -/
theorem foldl_addOnly_mem {α β : Type} (f : List α → β → List α)
    (hf : ∀ acc b x, x ∈ acc → x ∈ f acc b) :
    ∀ (l : List β) (acc : List α) (x : α), x ∈ acc → x ∈ l.foldl f acc := by
  intro l
  induction l with
  | nil => intro acc x hx; simpa using hx
  | cons hd tl ih => intro acc x hx; exact ih (f acc hd) x (hf acc hd x hx)

/-- C6: a health check alone never changes pool membership.  For every pool:
(i) probing the member at endpoint `e` leaves the pool's endpoint list exactly
unchanged, (ii) it also leaves every connection's non-health fields unchanged
(only the health flag and timestamp of the probed member can change),
(iii) the same holds for `IsHealthy`-triggered probes, (iv) `DiscoverWorkers`
removes a present connection only when its endpoint is absent from the
resolved endpoint set, (v) `AddWorker` removes nothing, and (vi) `RemoveWorker`
removes exactly the requested endpoint — so membership changes only through
discovery observing a missing endpoint or explicit removal. -/
theorem workerPool_membership (e : String) (now ttl : ℤ) (probe : ProbeOutcome)
    (observed : List String) (stubOkOf : String → Bool)
    (probeOf : String → ProbeOutcome)
    (eOther : String) (stubOk : Bool) (probeOther : ProbeOutcome)
    (pool : List WorkerConnection) :
    endpoints (healthCheckPool e now probe pool) = endpoints pool ∧
    (healthCheckPool e now probe pool).map connCore = pool.map connCore ∧
    endpoints (isHealthyPool e now ttl probe pool) = endpoints pool ∧
    (∀ c ∈ pool, c.endpoint ∈ observed →
      c.endpoint ∈ endpoints (discoverWorkers observed now stubOkOf probeOf pool)) ∧
    (∀ c ∈ pool, c.endpoint ∈ endpoints (addWorker eOther now stubOk probeOther pool)) ∧
    endpoints (removeWorker eOther pool) =
      (endpoints pool).filter (fun s => decide (¬ s = eOther)) := by
  refine ⟨?_, ?_, ?_, ?_, ?_, ?_⟩
  · induction pool with
    | nil => rfl
    | cons hd tl ih =>
      simp only [healthCheckPool, endpoints, List.map_cons] at ih ⊢
      refine congrArg₂ List.cons ?_ ih
      by_cases h : hd.endpoint = e
      · rw [if_pos h]
        exact congrArg (fun p => p.1) (performHealthCheck_connCore now probe hd)
      · rw [if_neg h]
  · induction pool with
    | nil => rfl
    | cons hd tl ih =>
      simp only [healthCheckPool, List.map_cons] at ih ⊢
      refine congrArg₂ List.cons ?_ ih
      by_cases h : hd.endpoint = e
      · rw [if_pos h]
        exact performHealthCheck_connCore now probe hd
      · rw [if_neg h]
  · induction pool with
    | nil => rfl
    | cons hd tl ih =>
      simp only [isHealthyPool, endpoints, List.map_cons] at ih ⊢
      refine congrArg₂ List.cons ?_ ih
      by_cases h : hd.endpoint = e
      · rw [if_pos h]
        exact congrArg (fun p => p.1) (isHealthy_connCore now ttl probe hd)
      · rw [if_neg h]
  · intro c hc hm
    simp only [discoverWorkers, endpoints]
    have hkept : c ∈ pool.filter (fun x => decide (x.endpoint ∈ observed)) :=
      List.mem_filter.mpr ⟨hc, by simpa using hm⟩
    refine List.mem_map_of_mem _ ?_
    refine foldl_addOnly_mem _ ?_ observed _ c hkept
    intro acc b x hx
    by_cases hany : acc.any (fun w => w.endpoint == b)
    · simpa [hany] using hx
    · by_cases hh : (mkWorkerConnection b now (stubOkOf b) (probeOf b)).healthy
      · simp only [hany, hh, Bool.false_eq_true, if_false, if_true]
        exact List.mem_append_left _ hx
      · simpa [hany, hh] using hx
  · intro c hc
    simp only [addWorker, endpoints]
    by_cases hany : pool.any (fun w => w.endpoint == eOther)
    · simp only [hany, if_true]
      exact List.mem_map_of_mem _ hc
    · by_cases hh : (mkWorkerConnection eOther now stubOk probeOther).healthy
      · simp only [hany, hh, Bool.false_eq_true, if_false, if_true]
        exact List.mem_map_of_mem _ (List.mem_append_left _ hc)
      · simp only [hany, hh, Bool.false_eq_true, if_false]
        exact List.mem_map_of_mem _ hc
  · induction pool with
    | nil => rfl
    | cons hd tl ih =>
      by_cases h : hd.endpoint = eOther
      · simp [removeWorker, endpoints, List.filter_cons, h] at ih ⊢
        exact ih
      · simp [removeWorker, endpoints, List.filter_cons, h] at ih ⊢
        exact ih

/-- C6 witness: a single-member pool keeps its endpoint "a" under a failed
(exception) probe, under discovery that still observes "a", and under an
`AddWorker` for a different endpoint "b". -/
theorem workerPool_membership_witness :
    endpoints (healthCheckPool "a" 7 ProbeOutcome.exn
      [⟨"a", true, true, 0, 0, 0, 0⟩]) = endpoints [⟨"a", true, true, 0, 0, 0, 0⟩] ∧
    (⟨"a", true, true, 0, 0, 0, 0⟩ : WorkerConnection).endpoint ∈
      endpoints (discoverWorkers ["a"] 7 (fun _ => true) (fun _ => ProbeOutcome.ok)
        [⟨"a", true, true, 0, 0, 0, 0⟩]) ∧
    (⟨"a", true, true, 0, 0, 0, 0⟩ : WorkerConnection).endpoint ∈
      endpoints (addWorker "b" 7 true ProbeOutcome.ok
        [⟨"a", true, true, 0, 0, 0, 0⟩]) :=
  ⟨(workerPool_membership "a" 7 30 ProbeOutcome.exn ["a"] (fun _ => true)
      (fun _ => ProbeOutcome.ok) "b" true ProbeOutcome.ok
      [⟨"a", true, true, 0, 0, 0, 0⟩]).1,
   (workerPool_membership "a" 7 30 ProbeOutcome.exn ["a"] (fun _ => true)
      (fun _ => ProbeOutcome.ok) "b" true ProbeOutcome.ok
      [⟨"a", true, true, 0, 0, 0, 0⟩]).2.2.2.1
     ⟨"a", true, true, 0, 0, 0, 0⟩ (by simp) (by simp),
   (workerPool_membership "a" 7 30 ProbeOutcome.exn ["a"] (fun _ => true)
      (fun _ => ProbeOutcome.ok) "b" true ProbeOutcome.ok
      [⟨"a", true, true, 0, 0, 0, 0⟩]).2.2.2.2.1
     ⟨"a", true, true, 0, 0, 0, 0⟩ (by simp)⟩

end RaycastMaster
